import Mathlib

/- Shallow embedding of the memory-lifecycle and relevance-scoring engine of
the LocalBrain browser extension (src/src/content-script.js, class
MemoryEngine).  JavaScript strings are modelled as `List Char`, JS integer
timestamps as `ℤ`, JS floating-point quantities as `ℚ` (exact), except the
TF-IDF scores which live in `ℝ` because the source calls `Math.log`. -/

abbrev Str := List Char

def str (s : String) : Str := s.data

/-- JS `\s` (the ASCII whitespace characters; the Unicode additions are not
used by any input considered here). -/
def isWS (c : Char) : Bool :=
  c == ' ' || c == '\t' || c == '\n' || c == '\r' || c == '\x0b' || c == '\x0c'

/-- JS `\w`, i.e. `[A-Za-z0-9_]`. -/
def isWordChar (c : Char) : Bool :=
  ('a' ≤ c && c ≤ 'z') || ('A' ≤ c && c ≤ 'Z') || ('0' ≤ c && c ≤ '9') || c == '_'

/-- `String.prototype.toLowerCase` (ASCII). -/
def toLowerStr (s : Str) : Str := s.map Char.toLower

/-- `String.prototype.trim`. -/
def jsTrim (s : Str) : Str :=
  ((s.dropWhile isWS).reverse.dropWhile isWS).reverse

/-- `String.prototype.includes` (substring containment). -/
def containsSub (haystack needle : Str) : Bool :=
  match haystack with
  | [] => needle.isEmpty
  | _ :: rest => needle.isPrefixOf haystack || containsSub rest needle

/-- Auxiliary for `jsSplit`: returns the first token and the remaining tokens
of `String.prototype.split` against a regex `/p+/`.  A run of `p`-characters
produces a single split point (contributed by the last character of the run),
matching the greedy `+`. -/
def jsSplitAux (p : Char → Bool) : Str → Str × List Str
  | [] => ([], [])
  | c :: rest =>
    if p c then
      if (match rest with | r :: _ => p r | [] => false) then
        jsSplitAux p rest
      else
        ([], (jsSplitAux p rest).1 :: (jsSplitAux p rest).2)
    else
      ((c :: (jsSplitAux p rest).1), (jsSplitAux p rest).2)

/-- JS `s.split(/p+/)`: e.g. `"".split(/\s+/) = [""]`, `" a".split = ["", "a"]`,
`"a  b".split = ["a", "b"]`.  The result is always non-empty. -/
def jsSplit (p : Char → Bool) (l : Str) : List Str :=
  (jsSplitAux p l).1 :: (jsSplitAux p l).2

/-- JS `Array.prototype.slice(s, e)` (for `0 ≤ s ≤ e`). -/
def jsSlice (l : List α) (s e : Nat) : List α :=
  (l.drop s).take (e - s)

/-- Insertion-order deduplication, as performed by `new Set(list)` followed by
iteration: the first occurrence of each element is kept, in order. -/
def setDedupAux (seen : List Str) : List Str → List Str
  | [] => []
  | x :: xs =>
    if x ∈ seen then setDedupAux seen xs
    else x :: setDedupAux (x :: seen) xs

def setDedup (l : List Str) : List Str := setDedupAux [] l

/-- The matches of the global regex `/#[\w]+/g` with the leading `#` removed
(as `extractTags` does with `tag.substring(1)`).  The scan is a left-to-right
state machine: `acc? = some acc` means a `#` was seen and `acc` word
characters follow it so far. -/
def hashtagAux (acc? : Option Str) : Str → List Str
  | [] => (match acc? with | some (a :: as) => [a :: as] | _ => [])
  | c :: rest =>
    if c == '#' then
      (match acc? with | some (a :: as) => [a :: as] | _ => []) ++ hashtagAux (some []) rest
    else if isWordChar c then
      match acc? with
      | some acc => hashtagAux (some (acc ++ [c])) rest
      | none => hashtagAux none rest
    else
      (match acc? with | some (a :: as) => [a :: as] | _ => []) ++ hashtagAux none rest

/- ------------------------------------------------------------------ -/
/- Fallback analyzers (MemoryEngine.categorizeContent, generateSummary,
   extractTags, preprocessText).                                       -/
/- ------------------------------------------------------------------ -/

/-- The test of the regex `/```[\s\S]*```/`: two occurrences of three
backticks, the second starting at least three characters after the first. -/
def hasCodeFence (content : Str) : Bool :=
  match content with
  | [] => false
  | _ :: rest =>
    ((str "```").isPrefixOf content && containsSub (content.drop 3) (str "```"))
      || hasCodeFence rest

/-- MemoryEngine.categorizeContent: ordered keyword-membership tests over the
lowercased content (the code-fence regex runs on the original content). -/
def categorizeContent (content : Str) : Str :=
  let text := toLowerStr content
  if containsSub text (str "code") || containsSub text (str "function")
      || containsSub text (str "api") || hasCodeFence content then str "code"
  else if containsSub text (str "error") || containsSub text (str "bug")
      || containsSub text (str "fix") || containsSub text (str "issue") then str "troubleshooting"
  else if containsSub text (str "how to") || containsSub text (str "tutorial")
      || containsSub text (str "guide") || containsSub text (str "step") then str "how-to"
  else if containsSub text (str "explain") || containsSub text (str "what is")
      || containsSub text (str "definition") then str "explanation"
  else if containsSub text (str "compare") || containsSub text (str "difference")
      || containsSub text (str "vs") then str "comparison"
  else if containsSub text (str "best") || containsSub text (str "recommend")
      || containsSub text (str "suggest") then str "recommendation"
  else if containsSub text (str "example") || containsSub text (str "sample")
      || containsSub text (str "instance") then str "example"
  else str "general"

/-- MemoryEngine.generateSummary: split on `/[.!?]+/`, keep sentences whose
trimmed length exceeds 10, join the first three with `". "`; if no sentence
qualifies return the first 100 characters of the content; if the joined
summary exceeds 150 characters, truncate to 150 and append `"..."`. -/
def generateSummary (content : Str) : Str :=
  let sentences := (jsSplit (fun c => c == '.' || c == '!' || c == '?') content).filter
    (fun s => 10 < (jsTrim s).length)
  if sentences.length = 0 then content.take 100
  else
    let summary := List.intercalate (str ". ") (sentences.take 3)
    if 150 < summary.length then summary.take 150 ++ str "..." else summary

/-- The fixed technical-term list of MemoryEngine.extractTags. -/
def technicalTerms : List Str :=
  ["javascript", "python", "react", "node", "api", "database", "server", "client",
   "html", "css", "sql", "git", "docker", "aws", "cloud", "security", "performance"].map
    String.data

/-- MemoryEngine.extractTags: hashtags (without `#`) plus every technical term
occurring in the lowercased content, deduplicated in insertion order. -/
def extractTags (content : Str) : List Str :=
  let text := toLowerStr content
  let hashtags := hashtagAux none content
  let tech := technicalTerms.filter (fun term => containsSub text term)
  setDedup (hashtags ++ tech)

/-- The stopword list of MemoryEngine.preprocessText (verbatim, including the
repeated "her"). -/
def stopwords : List Str :=
  ["the", "a", "an", "and", "or", "but", "in", "on", "at", "to", "for", "of", "with", "by",
   "is", "are", "was", "were", "be", "been", "being", "have", "has", "had", "do", "does", "did",
   "will", "would", "could", "should", "may", "might", "must", "can", "shall",
   "i", "you", "he", "she", "it", "we", "they", "me", "him", "her", "us", "them",
   "my", "your", "his", "her", "its", "our", "their", "this", "that", "these", "those",
   "what", "where", "when", "why", "how", "which", "who", "whom", "whose",
   "if", "then", "else", "so", "because", "since", "while", "during", "before", "after",
   "above", "below", "up", "down", "out", "off", "over", "under", "again", "further",
   "once", "here", "there", "everywhere", "anywhere", "somewhere", "nowhere",
   "all", "any", "both", "each", "few", "more", "most", "other", "some", "such",
   "no", "nor", "not", "only", "own", "same", "than", "too", "very", "just", "now"].map
    String.data

/-- MemoryEngine.preprocessText: lowercase, replace non-word non-space
characters by spaces, split on whitespace, keep tokens longer than 2, drop
stopwords.  `if (!text) return []` is the empty-string guard. -/
def preprocessText (text : Str) : List Str :=
  if text.isEmpty then []
  else
    let words := (jsSplit isWS ((toLowerStr text).map
      (fun c => if isWordChar c || isWS c then c else ' '))).filter
      (fun w => 2 < w.length)
    words.filter (fun w => ¬ stopwords.contains w)

/- ------------------------------------------------------------------ -/
/- Memory records and the engine state.                                -/
/- ------------------------------------------------------------------ -/

/-- A memory record (the objects created by MemoryEngine.saveMemory).  The
`...metadata` spread of the source is modelled by the optional `type` field,
the only metadata key the repository's callers supply. -/
structure Rec where
  id : ℚ
  content : Str
  timestamp : ℤ
  source : Str
  url : Str
  conversationId : Str
  category : Str
  summary : Str
  tags : List Str
  lastUpdated : Option ℤ
  type : Option Str
deriving DecidableEq

/-- The page context (`window.location`) a save happens in. -/
structure Env where
  hostname : Str
  url : Str
deriving DecidableEq

/-- A document prepared by calculateTFIDFScores: a memory together with its
preprocessed term list (`{...memory, terms}`). -/
structure TDoc where
  memory : Rec
  terms : List Str

/-- A scored document (`{...doc, score}`); the score is `none` when the JS
computation yields NaN. -/
structure ScoredDoc where
  memory : Rec
  terms : List Str
  score : Option ℝ

/-- The word set `new Set(text.toLowerCase().split(/\\s+/))` of
calculateSimilarity.  JS `Set` objects are modelled by
insertion-order-deduplicated lists; only sizes and membership are used by the
similarity, so iteration order is irrelevant. -/
def wordSet (text : Str) : List Str :=
  setDedup (jsSplit isWS (toLowerStr text))

/-- `[...words1].filter(x => words2.has(x))` of calculateSimilarity (already
duplicate-free, so the surrounding `new Set` changes nothing). -/
def interWords (text1 text2 : Str) : List Str :=
  (wordSet text1).filter (fun x => (wordSet text2).contains x)

/-- `new Set([...words1, ...words2])` of calculateSimilarity. -/
def unionWords (text1 text2 : Str) : List Str :=
  setDedup (wordSet text1 ++ wordSet text2)

/-- MemoryEngine.calculateSimilarity: Jaccard similarity
`intersection.size / union.size` of the two whitespace-tokenized lowercased
word sets.  The division is expressed with the kernel-computable `mkRat`
(`calculateSimilarity_eq_div` proves it equal to the literal quotient of the
sizes).  In JS `0/0` would be `NaN`; here it is `0`; the case is unreachable
because `split` always yields at least one token. -/
def calculateSimilarity (text1 text2 : Str) : ℚ :=
  mkRat (interWords text1 text2).length (unionWords text1 text2).length

/-- MemoryEngine.isDuplicate: exact content match or Jaccard similarity above
0.85 (written `mkRat 17 20` so the comparison is kernel-computable) with some
stored memory. -/
def isDuplicate (memories : List Rec) (newMemory : Rec) : Bool :=
  memories.any (fun memory =>
    memory.content == newMemory.content
      || decide (mkRat 17 20 < calculateSimilarity memory.content newMemory.content))

/-- MemoryEngine.calculateIDF: `ln(total / documentsWithTerm)`, and 0 when no
document contains the term. -/
noncomputable def calculateIDF (term : Str) (documents : List TDoc) : ℝ :=
  let documentsWithTerm := (documents.filter (fun doc => doc.terms.contains term)).length
  if documentsWithTerm = 0 then 0
  else Real.log ((documents.length : ℝ) / (documentsWithTerm : ℝ))

/-- The tokens that collide with inherited members of the plain-object
frequency table of getTermFrequencies (`const frequencies = {}`).  Tokens
reaching the scorer went through preprocessText's lowercasing and keep only
`[a-z0-9_]`, so of all `Object.prototype` member names exactly `constructor`
and `__proto__` are reachable. -/
def inheritedKey (term : Str) : Bool :=
  term == str "constructor" || term == str "__proto__"

/-- The read `docTermCounts[queryTerm] || 0` of calculateDocumentScore
against the `{}`-based table built by getTermFrequencies.  `some n` is the
own count (`0` via the `|| 0` when the term is absent).  `none` models a
non-numeric truthy result, which the subsequent division turns into NaN:
for `constructor` the inherited `Object.prototype.constructor` function (or,
when the document itself contains the token, the string that the build
loop's `(frequencies[term] || 0) + 1` concatenated onto that function); for
`__proto__` the inherited prototype object (the build loop's assignment of
a string to `__proto__` is silently ignored, so no own property shadows
it).  For every other token the table behaves as a plain count. -/
def termFrequencyRead (docTerms : List Str) (term : Str) : Option Nat :=
  if inheritedKey term then none else some (docTerms.count term)

/-- MemoryEngine.calculateDocumentScore: sum over the query terms of
`tf * idf` (the `forEach` accumulation), where `tf` is the frequency-table
read divided by the document length floored at 1, normalized by the number
of query terms floored at 1.  The score is `Option ℝ` with `none` = NaN:
once a term frequency read is non-numeric its division is NaN, and JS
arithmetic is NaN-absorbing (`NaN * idf`, `score + NaN`, `NaN / n` are all
NaN — even when `idf` is 0), so the accumulator stays `none` from that
point on. -/
noncomputable def calculateDocumentScore (queryTerms docTerms : List Str)
    (allDocuments : List TDoc) : Option ℝ :=
  let docLength := docTerms.length
  let score := queryTerms.foldl (fun score queryTerm =>
    match score, termFrequencyRead docTerms queryTerm with
    | some s, some count =>
      some (s + ((count : ℝ) / (max docLength 1 : ℕ)) * calculateIDF queryTerm allDocuments)
    | _, _ => none) (some (0 : ℝ))
  score.map (fun s => s / (max queryTerms.length 1 : ℕ))

/-- MemoryEngine.calculateTFIDFScores: preprocess `content + ' ' + summary +
' ' + tags.join(' ')` of every memory, then score each document against the
query terms. -/
noncomputable def calculateTFIDFScores (query : Str) (memories : List Rec) : List ScoredDoc :=
  if memories.length = 0 then []
  else
    let queryTerms := preprocessText query
    let documents := memories.map (fun memory =>
      TDoc.mk memory (preprocessText
        (memory.content ++ str " " ++ memory.summary ++ str " "
          ++ List.intercalate (str " ") memory.tags)))
    documents.map (fun doc =>
      ScoredDoc.mk doc.memory doc.terms (calculateDocumentScore queryTerms doc.terms documents))

/-- An entry of the `searchCache` map: the cached results and the time they
were stored. -/
structure CacheEntry where
  results : List ScoredDoc
  timestamp : ℤ

/-- The result of getRelevantMemories: the short-query fast path returns
plain memories, the scoring path returns scored documents. -/
inductive SearchResult where
  | recent (memories : List Rec)
  | scored (results : List ScoredDoc)

/-- The result filter `memory.score > 0.05` of getRelevantMemories: false
for a NaN score (`NaN > 0.05` is false in JS). -/
noncomputable def scoreAbove (memory : ScoredDoc) : Bool :=
  match memory.score with
  | some s => decide ((0.05 : ℝ) < s)
  | none => false

/-- The sort comparator `(a, b) => b.score - a.score` of getRelevantMemories:
descending by score, stable; when either score is NaN the difference is NaN,
which Array.prototype.sort treats as +0, i.e. the elements compare equal and
keep their order. -/
noncomputable def scoreDescending (a b : ScoredDoc) : Bool :=
  match a.score, b.score with
  | some x, some y => decide (y ≤ x)
  | _, _ => true

/-- The in-memory state of a MemoryEngine instance (the fields its
constructor initializes; persistence is fire-and-forget and does not affect
this state). -/
structure Engine where
  memories : List Rec
  maxMemories : Nat
  pageSize : Nat
  searchCache : List (Str × CacheEntry)
  cacheTimeout : ℤ

/-- An engine as built by the constructor (maxMemories 1000, pageSize 50,
empty cache, 5-minute cache timeout) holding the given records. -/
def mkEngine (memories : List Rec) : Engine :=
  { memories := memories
    maxMemories := 1000
    pageSize := 50
    searchCache := []
    cacheTimeout := 300000 }

/-- `Map.prototype.get` on an association list with unique keys. -/
def mapGet (m : List (Str × CacheEntry)) (k : Str) : Option CacheEntry :=
  match m with
  | [] => none
  | (k', v) :: rest => if k' = k then some v else mapGet rest k

/-- `Map.prototype.set`: overwrite in place, or append a new binding. -/
def mapSet (m : List (Str × CacheEntry)) (k : Str) (v : CacheEntry) :
    List (Str × CacheEntry) :=
  match m with
  | [] => [(k, v)]
  | (k', v') :: rest => if k' = k then (k', v) :: rest else (k', v') :: mapSet rest k v

/-- MemoryEngine.getCurrentConversationId: `` `${url}_${floor(now / 30min)}` ``. -/
def getCurrentConversationId (url : Str) (now : ℤ) : Str :=
  url ++ ('_' :: (toString (Int.fdiv now 1800000)).data)

/-- The predicate of MemoryEngine.findActiveConversation: same conversation
id and a timestamp within the last 30 minutes. -/
def isActiveConversation (now : ℤ) (newMemory : Rec) (memory : Rec) : Bool :=
  memory.conversationId == newMemory.conversationId
    && decide (now - memory.timestamp < 1800000)

/-- MemoryEngine.findActiveConversation (`Array.prototype.find`). -/
def findActiveConversation (memories : List Rec) (newMemory : Rec) (now : ℤ) : Option Rec :=
  memories.find? (isActiveConversation now newMemory)

/-- `memories.find(p)` followed by in-place mutation of the found object:
replaces the first element satisfying `p` by its image under `f`, returning
the updated collection and the updated element (if any). -/
def replaceFirst (p : Rec → Bool) (f : Rec → Rec) : List Rec → List Rec × Option Rec
  | [] => ([], none)
  | m :: rest =>
    if p m then (f m :: rest, some (f m))
    else ((m :: (replaceFirst p f rest).1), (replaceFirst p f rest).2)

/-- What MemoryEngine.saveMemory returned: `null` on duplicate, the merged
record on a conversation merge, the new record otherwise. -/
inductive SaveOutcome where
  | dup
  | merged (r : Rec)
  | created (r : Rec)
deriving DecidableEq

/-- The merge performed on an active conversation record: append the new
content after two newlines, refresh `timestamp`/`lastUpdated`, re-derive
category, summary and tags from the merged content. -/
def mergeInto (now : ℤ) (newContent : Str) (old : Rec) : Rec :=
  let merged := old.content ++ str "\n\n" ++ newContent
  { old with
    content := merged
    timestamp := now
    lastUpdated := some now
    category := categorizeContent merged
    summary := generateSummary merged
    tags := extractTags merged }

/-- The record object constructed at the top of MemoryEngine.saveMemory
(before the duplicate/merge checks), with the fallback analyzers deriving
category, summary and tags. -/
def savedRec (env : Env) (now : ℤ) (rand : ℚ) (content : Str)
    (mtype : Option Str) : Rec :=
  { id := Rat.add (mkRat now 1) rand
    content := jsTrim content
    timestamp := now
    source := env.hostname
    url := env.url
    conversationId := getCurrentConversationId env.url now
    category := categorizeContent content
    summary := generateSummary content
    tags := extractTags content
    lastUpdated := none
    type := mtype }

/-- MemoryEngine.saveMemory (with the local fallback analyzers, i.e. no
backend integration): build the record, drop duplicates, merge into an
active conversation if one exists (the cache is NOT cleared on this path),
otherwise prepend, truncate to maxMemories and clear the cache.  `now` is
`Date.now()` and `rand` the `Math.random()` tie-breaker, so the generated id
is `now + rand` (`Rat.add` is the kernel-computable rational addition). -/
def Engine.saveMemory (st : Engine) (env : Env) (now : ℤ) (rand : ℚ)
    (content : Str) (mtype : Option Str) : Engine × SaveOutcome :=
  let memory : Rec := savedRec env now rand content mtype
  if isDuplicate st.memories memory then (st, .dup)
  else
    match replaceFirst (isActiveConversation now memory) (mergeInto now memory.content)
        st.memories with
    | (mems, some updated) => ({ st with memories := mems }, .merged updated)
    | (_, none) =>
      let mems := memory :: st.memories
      let mems := if st.maxMemories < mems.length then mems.take st.maxMemories else mems
      ({ st with
        memories := mems
        searchCache := [] }, .created memory)

/-- MemoryEngine.getRelevantMemories: short queries take the unscored
recent-memories fast path (note: `start` is `page * pageSize`, not
`page * limit`); otherwise a fresh-enough cache entry for the
`` `${query}_${limit}_${page}` `` key is served as-is, else TF-IDF scores are
computed, filtered at 0.05, sorted by descending score (stable), paginated
by `(page, limit)`, and cached. -/
noncomputable def Engine.getRelevantMemories (st : Engine) (query : Str)
    (limit page : Nat) (now : ℤ) : SearchResult × Engine :=
  if query.isEmpty || decide ((jsTrim query).length < 3) then
    (.recent (jsSlice st.memories (page * st.pageSize) (page * st.pageSize + limit)), st)
  else
    let cacheKey := query ++ ('_' :: (Nat.repr limit).data) ++ ('_' :: (Nat.repr page).data)
    match mapGet st.searchCache cacheKey with
    | some cached =>
      if now - cached.timestamp < st.cacheTimeout then (.scored cached.results, st)
      else
        let results := jsSlice
          (((calculateTFIDFScores query st.memories).filter scoreAbove).mergeSort
            scoreDescending)
          (page * limit) ((page + 1) * limit)
        (.scored results,
          { st with searchCache := mapSet st.searchCache cacheKey ⟨results, now⟩ })
    | none =>
      let results := jsSlice
        (((calculateTFIDFScores query st.memories).filter scoreAbove).mergeSort
          scoreDescending)
        (page * limit) ((page + 1) * limit)
      (.scored results,
        { st with searchCache := mapSet st.searchCache cacheKey ⟨results, now⟩ })

/-- MemoryEngine.deleteMemoryById: `findIndex` on the id, `splice(i, 1)` and
cache clear when found (returning true), no-op returning false otherwise. -/
def Engine.deleteMemoryById (st : Engine) (id : ℚ) : Engine × Bool :=
  match st.memories.findIdx? (fun m => m.id == id) with
  | some i =>
    ({ st with
      memories := st.memories.eraseIdx i
      searchCache := [] }, true)
  | none => (st, false)

/-- MemoryEngine.cleanupOldMemories: drop records older than 90 days. -/
def Engine.cleanupOldMemories (st : Engine) (now : ℤ) : Engine :=
  { st with memories := st.memories.filter (fun memory =>
      decide (now - memory.timestamp < 7776000000)) }

/- ------------------------------------------------------------------ -/
/- Import (MemoryEngine.importMemories).                               -/
/- ------------------------------------------------------------------ -/

/-- A parsed JSON value, as produced by `JSON.parse` (numbers as `ℚ`). -/
inductive Json where
  | null
  | bool (b : Bool)
  | num (q : ℚ)
  | str (s : Str)
  | arr (elems : List Json)
  | obj (fields : List (Str × Json))

/-- JS property read `v["k"]`; `none` is `undefined` (also for non-objects,
whose property reads the import code performs never throw). -/
def jget (v : Json) (k : Str) : Option Json :=
  match v with
  | .obj fields =>
    match fields.find? (fun f => f.1 == k) with
    | some f => some f.2
    | none => none
  | _ => none

/-- SameValueZero, the equality used by `Set.prototype.has`, on parsed JSON
values: primitives compare by value; objects and arrays compare by reference
and freshly parsed values are never reference-identical to pre-existing ones,
so those comparisons are `false` here. -/
def sameValueZero : Json → Json → Bool
  | .null, .null => true
  | .bool a, .bool b => a == b
  | .num a, .num b => a == b
  | .str a, .str b => a == b
  | _, _ => false

/-- SameValueZero lifted to possibly-`undefined` values. -/
def sameValueZeroOpt : Option Json → Option Json → Bool
  | none, none => true
  | some a, some b => sameValueZero a b
  | _, _ => false

/-- The error message prefix added by the `catch` of importMemories. -/
def importFailMsg (msg : Str) : Str := str "Failed to import memories: " ++ msg

/-- The message of the non-array throw of importMemories. -/
def invalidFormatMsg : Str := str "Invalid import format: expected array of memories"

/-- MemoryEngine.importMemories over raw parsed values, exactly as the
source runs it: the first component is the post-call `this.memories` (JS
mutates in place, so on an error path it is the input collection unchanged),
the second is the thrown error or the `{imported, total}` result.  The
`jsonData` argument is the outcome of `JSON.parse` (`Except.error msg` when
parsing threw).  No element-shape validation is performed: arbitrary parsed
elements enter the collection. -/
def importMemoriesRaw (memories : List Json) (jsonData : Except Str Json)
    (merge : Bool) : List Json × Except Str (Nat × Nat) :=
  match jsonData with
  | .error msg => (memories, .error (importFailMsg msg))
  | .ok parsed =>
    match parsed with
    | .arr importedMemories =>
      let existingIds := memories.map (fun m => jget m (str "id"))
      let newMemories := importedMemories.filter
        (fun m => ¬ existingIds.any (fun i => sameValueZeroOpt i (jget m (str "id"))))
      let mems := if merge then newMemories ++ memories else importedMemories
      (mems, .ok (importedMemories.length, mems.length))
    | _ => (memories, .error (importFailMsg invalidFormatMsg))

/-- The outcome of `JSON.parse` on an import payload, specialized to the
record-shaped case: either the parse threw, or it produced a non-array value,
or an array of record-shaped elements. -/
inductive ImportParse where
  | malformed (msg : Str)
  | notArray
  | records (rs : List Rec)

/-- MemoryEngine.importMemories acting on an engine whose collection is
record-shaped and whose import payload parses to record-shaped elements (the
specialization of `importMemoriesRaw` under which the rest of the engine is
modelled): merge keeps imported records whose id is not already present and
prepends them, replace swaps the whole collection; both clear the cache; the
two failure cases rethrow and leave the state untouched.  Note that no
truncation to `maxMemories` happens on this path. -/
def Engine.importMemories (st : Engine) (input : ImportParse) (merge : Bool) :
    Engine × Except Str (Nat × Nat) :=
  match input with
  | .malformed msg => (st, .error (importFailMsg msg))
  | .notArray => (st, .error (importFailMsg invalidFormatMsg))
  | .records importedMemories =>
    let newMemories := importedMemories.filter
      (fun m => ¬ st.memories.any (fun e => e.id == m.id))
    let mems := if merge then newMemories ++ st.memories else importedMemories
    ({ st with
      memories := mems
      searchCache := [] }, .ok (importedMemories.length, mems.length))

/-- The JSON object a record round-trips to through JSON.stringify /
JSON.parse (Engine exports are pretty-printed arrays of these objects).
Used to relate the record-level `Engine.importMemories` to the raw
`importMemoriesRaw`. -/
def Rec.toJson (r : Rec) : Json :=
  .obj [(str "id", .num r.id),
        (str "content", .str r.content),
        (str "timestamp", .num (mkRat r.timestamp 1)),
        (str "source", .str r.source),
        (str "url", .str r.url),
        (str "conversationId", .str r.conversationId),
        (str "category", .str r.category),
        (str "summary", .str r.summary),
        (str "tags", .arr (r.tags.map Json.str))]

/- ------------------------------------------------------------------ -/
/- Concrete stores and inputs used by the claim instantiations below.  -/
/- ------------------------------------------------------------------ -/

/-- A small concrete record used by witness instantiations. -/
def sampleRec (id : ℚ) (content : Str) : Rec :=
  { id := id
    content := content
    timestamp := 0
    source := str "h"
    url := str "u"
    conversationId := str "c"
    category := str "general"
    summary := str ""
    tags := []
    lastUpdated := none
    type := none }

/-- A 12-record store built by the constructor. -/
def twelveStore : Engine :=
  mkEngine ((List.range 12).map (fun (i : Nat) => sampleRec (mkRat i 1) (str "m")))

/-- The page context of the cache-staleness scenario. -/
def pageEnv : Env := { hostname := str "h", url := str "u" }

/-- A record belonging to the currently active conversation window of
`pageEnv` at time 0 (conversation id `"u_0"`). -/
def recAlpha : Rec :=
  { id := 1
    content := str "alpha beta gamma"
    timestamp := 0
    source := str "h"
    url := str "u"
    conversationId := str "u_0"
    category := str "general"
    summary := str "alpha beta gamma"
    tags := []
    lastUpdated := none
    type := none }

/-- A scored document cached for the query key "abc_5_0" before the
mutation: it references `recAlpha` with its pre-merge content. -/
noncomputable def cachedDoc : ScoredDoc :=
  { memory := recAlpha, terms := [], score := some 1 }

/-- An engine holding `recAlpha` and a fresh cache entry for
`(query, limit, page) = ("abc", 5, 0)`. -/
noncomputable def cacheState : Engine :=
  { memories := [recAlpha]
    maxMemories := 1000
    pageSize := 50
    searchCache := [(str "abc_5_0", { results := [cachedDoc], timestamp := 0 })]
    cacheTimeout := 300000 }

/-- The example input of the spec's classification scenario. -/
def c5Input : Str := str "Here's how to use the API: call fetch()."

/-- An import payload of 1001 distinct records. -/
def capImport : List Rec :=
  (List.range 1001).map (fun (i : Nat) => sampleRec (mkRat i 1) (str "m"))

/- ------------------------------------------------------------------ -/
/- Generic lemmas about the JS string/set model.                       -/
/- ------------------------------------------------------------------ -/

theorem mem_setDedupAux {a : Str} : ∀ {l seen : List Str},
    a ∈ setDedupAux seen l ↔ a ∈ l ∧ a ∉ seen := by
  intro l
  induction l with
  | nil => intro seen; simp [setDedupAux]
  | cons x xs ih =>
    intro seen
    simp only [setDedupAux]
    split
    · next hx => rw [ih]; simp only [List.mem_cons]; aesop
    · next hx =>
      simp only [List.mem_cons, ih]
      by_cases hax : a = x <;> aesop

theorem mem_setDedup {a : Str} {l : List Str} : a ∈ setDedup l ↔ a ∈ l := by
  simp [setDedup, mem_setDedupAux]

theorem setDedupAux_nodup : ∀ (l seen : List Str), (setDedupAux seen l).Nodup := by
  intro l
  induction l with
  | nil => intro seen; simp [setDedupAux]
  | cons x xs ih =>
    intro seen
    simp only [setDedupAux]
    split
    · exact ih seen
    · next hx =>
      refine List.nodup_cons.mpr ⟨?_, ih (x :: seen)⟩
      intro hmem
      exact (mem_setDedupAux.mp hmem).2 (List.mem_cons_self x seen)

theorem setDedup_nodup (l : List Str) : (setDedup l).Nodup := setDedupAux_nodup l []

theorem jsSplit_ne_nil (p : Char → Bool) (l : Str) : jsSplit p l ≠ [] := by
  simp [jsSplit]

theorem setDedup_ne_nil {l : List Str} (h : l ≠ []) : setDedup l ≠ [] := by
  match l, h with
  | x :: xs, _ =>
    simp [setDedup, setDedupAux]

theorem wordSet_ne_nil (text : Str) : wordSet text ≠ [] :=
  setDedup_ne_nil (jsSplit_ne_nil _ _)

theorem unionWords_length_pos (text1 text2 : Str) : 0 < (unionWords text1 text2).length := by
  rcases List.exists_cons_of_ne_nil (wordSet_ne_nil text1) with ⟨x, xs, hx⟩
  have : unionWords text1 text2 ≠ [] := by
    apply setDedup_ne_nil
    simp [hx]
  exact List.length_pos.mpr this

theorem interWords_length_le (text1 text2 : Str) :
    (interWords text1 text2).length ≤ (unionWords text1 text2).length := by
  have hnd : (interWords text1 text2).Nodup :=
    List.Nodup.filter _ (setDedup_nodup _)
  have hndu : (unionWords text1 text2).Nodup := setDedup_nodup _
  have hsub : interWords text1 text2 ⊆ unionWords text1 text2 := by
    intro a ha
    have ha1 : a ∈ wordSet text1 := List.mem_of_mem_filter ha
    have : a ∈ wordSet text1 ++ wordSet text2 := List.mem_append_left _ ha1
    exact mem_setDedup.mpr this
  calc (interWords text1 text2).length
      = (interWords text1 text2).toFinset.card :=
        (List.toFinset_card_of_nodup hnd).symm
    _ ≤ (unionWords text1 text2).toFinset.card := by
        apply Finset.card_le_card
        intro a ha
        rw [List.mem_toFinset] at ha ⊢
        exact hsub ha
    _ = (unionWords text1 text2).length := List.toFinset_card_of_nodup hndu

theorem calculateSimilarity_eq_div (text1 text2 : Str) :
    calculateSimilarity text1 text2
      = ((interWords text1 text2).length : ℚ) / ((unionWords text1 text2).length : ℚ) := by
  rw [calculateSimilarity, Rat.mkRat_eq_div]
  norm_num

/-- C3: for every pair of input texts the per-save duplicate test's Jaccard
similarity is intersection size over union size of the two lowercased
whitespace-tokenized word sets, the union is never empty (JS `split` always
returns at least one token, so the word sets are in fact never empty and the
both-empty case of the claim is vacuous), hence no division by zero ever
occurs and the value is a well-defined rational in `[0, 1]`.  In particular
with both word sets empty being unreachable, the `> 0.85` duplicate test
never sees an undefined value and such a candidate is (vacuously) treated as
non-duplicate. -/
theorem C3_jaccard_no_div_by_zero (text1 text2 : Str) :
    wordSet text1 ≠ [] ∧
    0 < (unionWords text1 text2).length ∧
    calculateSimilarity text1 text2
      = ((interWords text1 text2).length : ℚ) / ((unionWords text1 text2).length : ℚ) ∧
    0 ≤ calculateSimilarity text1 text2 ∧
    calculateSimilarity text1 text2 ≤ 1 := by
  refine ⟨wordSet_ne_nil text1, unionWords_length_pos text1 text2,
    calculateSimilarity_eq_div text1 text2, ?_, ?_⟩
  · rw [calculateSimilarity_eq_div]
    positivity
  · rw [calculateSimilarity_eq_div]
    have hpos : (0 : ℚ) < ((unionWords text1 text2).length : ℚ) := by
      exact_mod_cast unionWords_length_pos text1 text2
    rw [div_le_one hpos]
    exact_mod_cast interWords_length_le text1 text2

/- ------------------------------------------------------------------ -/
/- TF-IDF scoring facts (C9).                                          -/
/- ------------------------------------------------------------------ -/

theorem calculateIDF_nonneg (term : Str) (documents : List TDoc) :
    0 ≤ calculateIDF term documents := by
  rw [calculateIDF]
  set n := (documents.filter (fun doc => doc.terms.contains term)).length with hn
  by_cases h : n = 0
  · simp [h]
  · rw [if_neg h]
    apply Real.log_nonneg
    have hle : n ≤ documents.length := by
      rw [hn]; exact List.length_filter_le _ _
    have hpos : (0 : ℝ) < (n : ℝ) := by
      exact_mod_cast Nat.pos_of_ne_zero h
    rw [one_le_div hpos]
    exact_mod_cast hle

theorem calculateIDF_eq_zero_of_absent (term : Str) (documents : List TDoc)
    (h : (documents.filter (fun doc => doc.terms.contains term)).length = 0) :
    calculateIDF term documents = 0 := by
  unfold calculateIDF
  rw [if_pos h]

theorem score_foldl_nonneg (docTerms : List Str) (allDocuments : List TDoc) :
    ∀ (queryTerms : List Str) (s₀ : ℝ),
      (∀ t ∈ queryTerms, inheritedKey t = false) → 0 ≤ s₀ →
      ∃ s, queryTerms.foldl (fun score queryTerm =>
          match score, termFrequencyRead docTerms queryTerm with
          | some s, some count =>
            some (s + ((count : ℝ) / (max docTerms.length 1 : ℕ))
              * calculateIDF queryTerm allDocuments)
          | _, _ => none) (some s₀) = some s ∧ 0 ≤ s := by
  intro queryTerms
  induction queryTerms with
  | nil => intro s₀ _ h0; exact ⟨s₀, rfl, h0⟩
  | cons q qs ih =>
    intro s₀ hkeys h0
    rw [List.foldl_cons]
    have hq : inheritedKey q = false := hkeys q (List.mem_cons_self q qs)
    have hread : termFrequencyRead docTerms q = some (docTerms.count q) := by
      rw [termFrequencyRead, if_neg (by simp [hq])]
    rw [hread]
    apply ih
    · intro t ht
      exact hkeys t (List.mem_cons_of_mem _ ht)
    · have hterm : 0 ≤ ((docTerms.count q : ℝ) / (max docTerms.length 1 : ℕ))
          * calculateIDF q allDocuments := by
        apply mul_nonneg
        · apply div_nonneg
          · exact_mod_cast Nat.zero_le _
          · exact_mod_cast Nat.zero_le _
        · exact calculateIDF_nonneg q allDocuments
      linarith

theorem calculateDocumentScore_nonneg_of_no_inherited (queryTerms docTerms : List Str)
    (allDocuments : List TDoc)
    (hkeys : ∀ t ∈ queryTerms, inheritedKey t = false) :
    ∃ s, calculateDocumentScore queryTerms docTerms allDocuments = some s ∧ 0 ≤ s := by
  obtain ⟨s, hs, h0⟩ := score_foldl_nonneg docTerms allDocuments queryTerms 0 hkeys le_rfl
  refine ⟨s / (max queryTerms.length 1 : ℕ), ?_, ?_⟩
  · rw [calculateDocumentScore, hs]
    rfl
  · apply div_nonneg h0
    exact_mod_cast Nat.zero_le _

/-- C9: at the failing input the program's TF-IDF score is NaN.  The claim
demands a non-negative finite score for EVERY query and corpus, with the
term frequency a plain count read; but getTermFrequencies builds its table
as a plain object, so for the query term "constructor" the
`docTermCounts[queryTerm] || 0` read returns the inherited truthy
`Object.prototype.constructor`, the division makes tf NaN, and NaN
propagates to the document score — even though the IDF of the term is 0
(no document contains it), the case the claim says "contributes nothing".
For query terms that avoid the two reachable inherited keys the claimed
non-negativity does hold (`calculateDocumentScore_nonneg_of_no_inherited`). -/
theorem C9_constructor_query_score_nan :
    calculateDocumentScore [str "constructor"] [str "python"]
      [TDoc.mk (sampleRec 1 (str "python")) [str "python"]] = none ∧
    calculateIDF (str "constructor")
      [TDoc.mk (sampleRec 1 (str "python")) [str "python"]] = 0 ∧
    termFrequencyRead [str "python"] (str "constructor") = none ∧
    (∀ term docs, 0 ≤ calculateIDF term docs) := by
  refine ⟨rfl, rfl, rfl, fun term docs => calculateIDF_nonneg term docs⟩

/- ------------------------------------------------------------------ -/
/- Summary length (C4).                                                -/
/- ------------------------------------------------------------------ -/

set_option maxRecDepth 100000 in
/-- C4 counterexample: on a 160-character sentence the summarizer truncates
to 150 characters and then appends the three-character ellipsis, so the
output has 153 characters — the claimed bound of 150 is violated. -/
theorem C4_counterexample :
    (generateSummary (List.replicate 160 'a')).length = 153 ∧
    ¬ ((generateSummary (List.replicate 160 'a')).length ≤ 150) := by
  constructor
  · decide
  · decide

/-- C4 (amended): the fallback summarizer's output is at most 153 characters
(150 from the hard truncation plus the 3-character ellipsis appended after
it); the sentence filter keeps sentences whose trimmed length exceeds 10,
the first three are joined with ". ", and when no sentence qualifies the
first 100 characters of the content are returned. -/
theorem C4_summary_at_most_153 (content : Str) :
    (generateSummary content).length ≤ 153 := by
  rw [generateSummary]
  split
  · exact le_trans (List.length_take_le _ _) (by norm_num)
  · dsimp only
    split
    · rw [List.length_append]
      have h1 := List.length_take_le 150
        (List.intercalate (str ". ")
          (((jsSplit (fun c => c == '.' || c == '!' || c == '?') content).filter
            (fun s => 10 < (jsTrim s).length)).take 3))
      have h2 : (str "...").length = 3 := rfl
      omega
    · next h2 => omega

/- ------------------------------------------------------------------ -/
/- Category classification (C5).                                       -/
/- ------------------------------------------------------------------ -/

set_option maxRecDepth 100000 in
/-- C5 counterexample: the classifier does NOT return "how-to" on the
spec's example input, because the first (code-category) test already matches:
its keyword list is `code`, `function`, `api` (plus the code-fence regex),
and the lowercased input contains "api". -/
theorem C5_counterexample : categorizeContent c5Input ≠ str "how-to" := by
  decide

set_option maxRecDepth 100000 in
/-- C5 (amended): on the input "Here's how to use the API: call fetch()."
the ordered first-match-wins classifier returns "code" (not "how-to"),
since the first test's keywords are `code`/`function`/`api`/code-fence and
the input contains "API"; the tests do run in the order code →
troubleshooting → how-to → explanation → comparison → recommendation →
example with "general" as the default, as every output is one of those
eight categories. -/
theorem C5_categorize_api_is_code :
    categorizeContent c5Input = str "code" ∧
    ∀ content : Str, categorizeContent content ∈
      [str "code", str "troubleshooting", str "how-to", str "explanation",
       str "comparison", str "recommendation", str "example", str "general"] := by
  constructor
  · decide
  · intro content
    rw [categorizeContent]
    split_ifs <;> simp

/- ------------------------------------------------------------------ -/
/- Import error handling (C7).                                         -/
/- ------------------------------------------------------------------ -/

theorem findIdx?_some_decomp (p : α → Bool) :
    ∀ (l : List α) (i : Nat), l.findIdx? p = some i →
      ∃ l₁ a l₂, l = l₁ ++ a :: l₂ ∧ l₁.length = i ∧ p a = true ∧
        (∀ b ∈ l₁, p b = false) ∧ l.eraseIdx i = l₁ ++ l₂ := by
  intro l
  induction l with
  | nil => intro i h; rw [List.findIdx?_nil] at h; exact absurd h (by simp)
  | cons x xs ih =>
    intro i h
    rw [List.findIdx?_cons] at h
    by_cases hx : p x
    · rw [if_pos hx] at h
      obtain rfl : (0 : Nat) = i := by simpa using h
      exact ⟨[], x, xs, by simp, rfl, hx, by simp, by simp⟩
    · rw [if_neg hx, List.findIdx?_succ] at h
      cases hfi : xs.findIdx? p with
      | none => rw [hfi] at h; exact absurd h (by simp)
      | some j =>
        rw [hfi] at h
        obtain rfl : j + 1 = i := by simpa using h
        obtain ⟨l₁, a, l₂, hdecomp, hlen, hpa, hprev, herase⟩ := ih j hfi
        refine ⟨x :: l₁, a, l₂, by simp [hdecomp], by simp [hlen], hpa, ?_, ?_⟩
        · intro b hb
          rcases List.mem_cons.mp hb with rfl | hb
          · simpa using hx
          · exact hprev b hb
        · rw [List.eraseIdx_cons_succ, herase]
          simp

/-- C10: deleteMemoryById returns true exactly when some record with the
given id is present; in that case it removes exactly the first matching
record (every record before it has a different id, all others are kept in
order) and clears the search cache; otherwise it returns false and the
engine state is entirely unchanged. -/
theorem C10_delete_first_match (st : Engine) (id : ℚ) :
    ((st.deleteMemoryById id).2 = true ↔ ∃ r ∈ st.memories, r.id = id) ∧
    ((∀ r ∈ st.memories, r.id ≠ id) → (st.deleteMemoryById id).1 = st) ∧
    ((∃ r ∈ st.memories, r.id = id) →
      ∃ l₁ r l₂, st.memories = l₁ ++ r :: l₂ ∧ r.id = id ∧
        (∀ b ∈ l₁, b.id ≠ id) ∧
        (st.deleteMemoryById id).1.memories = l₁ ++ l₂ ∧
        (st.deleteMemoryById id).1.searchCache = []) := by
  cases hf : st.memories.findIdx? (fun m => m.id == id) with
  | none =>
    have hall := List.findIdx?_eq_none_iff.mp hf
    refine ⟨?_, ?_, ?_⟩
    · rw [Engine.deleteMemoryById, hf]
      simp only [Bool.false_eq_true, false_iff]
      rintro ⟨r, hr, hrid⟩
      have := hall r hr
      rw [hrid] at this
      simp at this
    · intro
      rw [Engine.deleteMemoryById, hf]
    · rintro ⟨r, hr, hrid⟩
      have := hall r hr
      rw [hrid] at this
      simp at this
  | some i =>
    obtain ⟨l₁, a, l₂, hdecomp, hlen, hpa, hprev, herase⟩ :=
      findIdx?_some_decomp _ st.memories i hf
    have haid : a.id = id := by simpa using hpa
    refine ⟨?_, ?_, ?_⟩
    · rw [Engine.deleteMemoryById, hf]
      simp only [true_iff]
      exact ⟨a, by rw [hdecomp]; exact List.mem_append_right _ (List.mem_cons_self a l₂), haid⟩
    · intro hnone
      have := hnone a (by rw [hdecomp]; exact List.mem_append_right _ (List.mem_cons_self a l₂))
      exact absurd haid this
    · intro
      refine ⟨l₁, a, l₂, hdecomp, haid, ?_, ?_, ?_⟩
      · intro b hb
        have := hprev b hb
        simpa using this
      · rw [Engine.deleteMemoryById, hf]
        exact herase
      · rw [Engine.deleteMemoryById, hf]

/-- Witness for C10 at a concrete input: deleting id 1 from a two-record
store returns true. -/
theorem C10_delete_witness :
    ((mkEngine [sampleRec 1 (str "a"), sampleRec 2 (str "b")]).deleteMemoryById 1).2
      = true := by
  rw [(C10_delete_first_match _ 1).1]
  exact ⟨sampleRec 1 (str "a"), List.mem_cons_self _ _, rfl⟩

/- ------------------------------------------------------------------ -/
/- The short-query fast path (C6).                                     -/
/- ------------------------------------------------------------------ -/

/-- C6: on the short-query fast path the slice start is
`page * pageSize` (pageSize is 50), not `page * limit`: querying the empty
string against a 12-record store with limit 5, page 1 returns the empty
list (positions 50–54), while the claim's pagination (positions 5–9 of the
collection) would return five records.  Page 0 coincides with the claim
because `0 * pageSize = 0 * limit = 0`. -/
theorem C6_fastpath_pagination_uses_pageSize :
    (twelveStore.getRelevantMemories (str "") 5 1 0).1 = .recent [] ∧
    twelveStore.memories.length = 12 ∧
    (jsSlice twelveStore.memories (1 * 5) (1 * 5 + 5)).length = 5 := by
  refine ⟨rfl, by decide, by decide⟩

/- ------------------------------------------------------------------ -/
/- Cache staleness after a conversation merge (C1).                    -/
/- ------------------------------------------------------------------ -/

/-- C1: the conversation-merge save path does not invalidate the search
cache, so a search after the mutation is served the results cached before
it.  Concretely: saving "hello world" at time 0 merges into `recAlpha`
(same conversation id, within the window, not a duplicate), the cache is
left untouched, and `getRelevantMemories "abc" 5 0` then returns the
pre-mutation cached results — whose record content is not the post-mutation
content of the stored record. -/
theorem C1_merge_save_serves_stale_cache :
    (cacheState.saveMemory pageEnv 0 0 (str "hello world") none).2
      = .merged (mergeInto 0 (str "hello world") recAlpha) ∧
    (cacheState.saveMemory pageEnv 0 0 (str "hello world") none).1.searchCache
      = cacheState.searchCache ∧
    ((cacheState.saveMemory pageEnv 0 0 (str "hello world") none).1.getRelevantMemories
        (str "abc") 5 0 0).1 = .scored [cachedDoc] ∧
    (mergeInto 0 (str "hello world") recAlpha).content ≠ recAlpha.content := by
  refine ⟨rfl, rfl, rfl, by decide⟩

/- ------------------------------------------------------------------ -/
/- saveMemory case analysis and duplicate idempotence (C8).            -/
/- ------------------------------------------------------------------ -/

theorem saveMemory_cases (st : Engine) (env : Env) (now : ℤ) (rand : ℚ)
    (content : Str) (mtype : Option Str) :
    (isDuplicate st.memories (savedRec env now rand content mtype) = true ∧
      st.saveMemory env now rand content mtype = (st, .dup)) ∨
    (isDuplicate st.memories (savedRec env now rand content mtype) = false ∧
      (∃ u, (replaceFirst (isActiveConversation now (savedRec env now rand content mtype))
          (mergeInto now (savedRec env now rand content mtype).content) st.memories).2
            = some u ∧
        st.saveMemory env now rand content mtype
          = ({ st with memories :=
                (replaceFirst (isActiveConversation now (savedRec env now rand content mtype))
                  (mergeInto now (savedRec env now rand content mtype).content)
                  st.memories).1 }, .merged u))) ∨
    (isDuplicate st.memories (savedRec env now rand content mtype) = false ∧
      (replaceFirst (isActiveConversation now (savedRec env now rand content mtype))
        (mergeInto now (savedRec env now rand content mtype).content) st.memories).2 = none ∧
      st.saveMemory env now rand content mtype
        = ({ st with
              memories :=
                if st.maxMemories < (savedRec env now rand content mtype :: st.memories).length
                then (savedRec env now rand content mtype :: st.memories).take st.maxMemories
                else savedRec env now rand content mtype :: st.memories
              searchCache := [] }, .created (savedRec env now rand content mtype))) := by
  by_cases hdup : isDuplicate st.memories (savedRec env now rand content mtype)
  · left
    refine ⟨hdup, ?_⟩
    rw [Engine.saveMemory]
    simp only [hdup, if_true]
  · cases hrep : (replaceFirst (isActiveConversation now (savedRec env now rand content mtype))
        (mergeInto now (savedRec env now rand content mtype).content) st.memories) with
    | mk mems o =>
      cases o with
      | some u =>
        right; left
        refine ⟨by simpa using hdup, u, rfl, ?_⟩
        rw [Engine.saveMemory]
        simp only [hdup, if_false, Bool.false_eq_true]
        rw [hrep]
      | none =>
        right; right
        refine ⟨by simpa using hdup, rfl, ?_⟩
        rw [Engine.saveMemory]
        simp only [hdup, if_false, Bool.false_eq_true]
        rw [hrep]

theorem isDuplicate_false_content_ne {mems : List Rec} {m : Rec}
    (h : isDuplicate mems m = false) : ∀ r ∈ mems, r.content ≠ m.content := by
  intro r hr hne
  rw [isDuplicate, List.any_eq_false] at h
  have := h r hr
  rw [hne] at this
  simp at this

/-- C8 (amended): whenever a save takes the new-record path (no duplicate,
no active conversation — the hypothesis is the save's outcome), exactly one
record of the resulting store has the trimmed content, and saving the
identical content again (at any later time, with any random tie-breaker and
metadata) is caught by the exact-match duplicate test: it returns null and
leaves the engine state completely unchanged.  (The cap must be positive —
it is 1000 in the constructor — for the new record to survive truncation.) -/
theorem C8_duplicate_save_idempotent (st : Engine) (env : Env) (now : ℤ)
    (rand : ℚ) (content : Str) (mtype : Option Str) (now' : ℤ) (rand' : ℚ)
    (mtype' : Option Str) (m : Rec)
    (hmax : 0 < st.maxMemories)
    (hsave : (st.saveMemory env now rand content mtype).2 = .created m) :
    m.content = jsTrim content ∧
    ((st.saveMemory env now rand content mtype).1.memories.filter
        (fun r => r.content == jsTrim content)).length = 1 ∧
    ((st.saveMemory env now rand content mtype).1.saveMemory env now' rand' content
        mtype').2 = .dup ∧
    ((st.saveMemory env now rand content mtype).1.saveMemory env now' rand' content
        mtype').1 = (st.saveMemory env now rand content mtype).1 := by
  rcases saveMemory_cases st env now rand content mtype with
    ⟨hdup, heq⟩ | ⟨hdup, u, hrep, heq⟩ | ⟨hdup, hrep, heq⟩
  · rw [heq] at hsave; exact absurd hsave (by simp)
  · rw [heq] at hsave; exact absurd hsave (by simp)
  · have hm : m = savedRec env now rand content mtype := by
      rw [heq] at hsave
      simpa using hsave.symm
    have hmem1 : (st.saveMemory env now rand content mtype).1.memories
        = if st.maxMemories < (savedRec env now rand content mtype :: st.memories).length
          then (savedRec env now rand content mtype :: st.memories).take st.maxMemories
          else savedRec env now rand content mtype :: st.memories := by
      rw [heq]
    obtain ⟨X, hX, hXsub⟩ : ∃ X,
        (st.saveMemory env now rand content mtype).1.memories
          = savedRec env now rand content mtype :: X ∧ X.Sublist st.memories := by
      rw [hmem1]
      split
      · obtain ⟨k, hk⟩ : ∃ k, st.maxMemories = k + 1 :=
          ⟨st.maxMemories - 1, by omega⟩
        rw [hk, List.take_succ_cons]
        exact ⟨st.memories.take k, rfl, List.take_sublist k st.memories⟩
      · exact ⟨st.memories, rfl, List.Sublist.refl _⟩
    have hcontent : (savedRec env now rand content mtype).content = jsTrim content := rfl
    have hfilter_nil :
        st.memories.filter (fun r => r.content == jsTrim content) = [] := by
      rw [List.filter_eq_nil_iff]
      intro r hr
      have hne := isDuplicate_false_content_ne hdup r hr
      rw [hcontent] at hne
      simpa using hne
    have hXfilter : X.filter (fun r => r.content == jsTrim content) = [] := by
      have := (hXsub.filter (fun r => r.content == jsTrim content))
      rw [hfilter_nil] at this
      exact List.sublist_nil.mp this
    have hcontent2 : (savedRec env now' rand' content mtype').content = jsTrim content := rfl
    refine ⟨by rw [hm, hcontent], ?_, ?_, ?_⟩
    · rw [hX, List.filter_cons_of_pos (by
        show ((savedRec env now rand content mtype).content == jsTrim content) = true
        rw [hcontent]
        exact beq_self_eq_true _), hXfilter]
      rfl
    · rcases saveMemory_cases (st.saveMemory env now rand content mtype).1 env now'
          rand' content mtype' with ⟨_, heq'⟩ | ⟨hdup', _, _, _⟩ | ⟨hdup', _, _⟩
      · rw [heq']
      · exact absurd hdup' (by
          rw [hX, isDuplicate, List.any_cons]
          simp [hcontent, hcontent2])
      · exact absurd hdup' (by
          rw [hX, isDuplicate, List.any_cons]
          simp [hcontent, hcontent2])
    · rcases saveMemory_cases (st.saveMemory env now rand content mtype).1 env now'
          rand' content mtype' with ⟨_, heq'⟩ | ⟨hdup', _, _, _⟩ | ⟨hdup', _, _⟩
      · rw [heq']
      · exact absurd hdup' (by
          rw [hX, isDuplicate, List.any_cons]
          simp [hcontent, hcontent2])
      · exact absurd hdup' (by
          rw [hX, isDuplicate, List.any_cons]
          simp [hcontent, hcontent2])

/-- C8 counterexample: over a store holding an active conversation record
(`recAlpha`, conversation id "u_0", fresh timestamp), saving "hello world"
twice in succession is NOT idempotent: the first save merges into the
conversation record; the second save is not detected as a duplicate (the
merged content is neither equal nor 0.85-similar to "hello world"), does
not return null, merges AGAIN, and changes the record collection — the
claim fails for such stores. -/
theorem C8_counterexample :
    ((mkEngine [recAlpha]).saveMemory pageEnv 0 0 (str "hello world") none).2
      = .merged (mergeInto 0 (str "hello world") recAlpha) ∧
    (((mkEngine [recAlpha]).saveMemory pageEnv 0 0 (str "hello world") none).1.saveMemory
        pageEnv 0 0 (str "hello world") none).2 ≠ .dup ∧
    (((mkEngine [recAlpha]).saveMemory pageEnv 0 0 (str "hello world") none).1.saveMemory
        pageEnv 0 0 (str "hello world") none).1.memories
      ≠ ((mkEngine [recAlpha]).saveMemory pageEnv 0 0 (str "hello world") none).1.memories :=
  ⟨rfl, by decide, by decide⟩

/-- Witness for C8 at a concrete input: on an empty store the first save of
"hello world foo" creates a record and the identical second save (later
time, different tie-breaker) returns null. -/
theorem C8_duplicate_save_idempotent_witness :
    (((mkEngine []).saveMemory pageEnv 0 0 (str "hello world foo") none).1.saveMemory
        pageEnv 5 (mkRat 1 2) (str "hello world foo") none).2 = .dup :=
  (C8_duplicate_save_idempotent (mkEngine []) pageEnv 0 0 (str "hello world foo")
    none 5 (mkRat 1 2) none (savedRec pageEnv 0 0 (str "hello world foo") none)
    (by decide) rfl).2.2.1

/- ------------------------------------------------------------------ -/
/- The store-size cap (C2).                                            -/
/- ------------------------------------------------------------------ -/

theorem replaceFirst_length (p : Rec → Bool) (f : Rec → Rec) :
    ∀ l : List Rec, (replaceFirst p f l).1.length = l.length := by
  intro l
  induction l with
  | nil => rfl
  | cons m rest ih =>
    rw [replaceFirst]
    split
    · rfl
    · simpa using ih

theorem length_eraseIdx_le : ∀ (l : List α) (i : Nat), (l.eraseIdx i).length ≤ l.length := by
  intro l
  induction l with
  | nil => intro i; simp [List.eraseIdx]
  | cons x xs ih =>
    intro i
    cases i with
    | zero => simp [List.eraseIdx]
    | succ j =>
      rw [List.eraseIdx_cons_succ]
      simpa using Nat.succ_le_succ (ih j)

/-- C2 counterexample: importMemories enforces no cap at all — replacing the
(empty) collection of a freshly constructed engine (maxMemories = 1000) with
an imported array of 1001 records leaves 1001 stored records, violating the
claimed `count(records) ≤ maxMemories` invariant. -/
theorem C2_counterexample :
    ((mkEngine []).importMemories (.records capImport) false).1.memories.length = 1001 ∧
    ((mkEngine []).importMemories (.records capImport) false).1.maxMemories = 1000 ∧
    ¬ (1001 ≤ 1000) := by
  refine ⟨?_, rfl, by decide⟩
  simp only [Engine.importMemories, Bool.false_eq_true, if_false, capImport,
    List.length_map, List.length_range]

/-- C2 (amended): the cap is an invariant of saveMemory (all three paths:
duplicate no-op, in-place conversation merge, and creation with truncation
to maxMemories), of deleteMemoryById and of cleanupOldMemories — but not of
importMemories, which can exceed it (see the counterexample).  When the
creation path truncates, the dropped records come only from the tail of the
most-recent-first collection (the result is a prefix of the new record
prepended to the old collection), i.e. the oldest-created records under the
canonical ordering are the ones evicted. -/
theorem C2_cap_preserved_without_import (st : Engine) (env : Env) (now : ℤ)
    (rand : ℚ) (content : Str) (mtype : Option Str) (id : ℚ)
    (hcap : st.memories.length ≤ st.maxMemories) :
    (st.saveMemory env now rand content mtype).1.memories.length ≤ st.maxMemories ∧
    (st.deleteMemoryById id).1.memories.length ≤ st.maxMemories ∧
    (st.cleanupOldMemories now).memories.length ≤ st.maxMemories ∧
    (∀ m, (st.saveMemory env now rand content mtype).2 = .created m →
      ∃ rest, (st.saveMemory env now rand content mtype).1.memories ++ rest
        = m :: st.memories) := by
  refine ⟨?_, ?_, ?_, ?_⟩
  · rcases saveMemory_cases st env now rand content mtype with
      ⟨_, heq⟩ | ⟨_, u, _, heq⟩ | ⟨_, _, heq⟩
    · rw [heq]; exact hcap
    · rw [heq]
      simpa [replaceFirst_length] using hcap
    · rw [heq]
      simp only []
      split
      · exact List.length_take_le _ _
      · next h =>
        simp only [List.length_cons] at h ⊢
        omega
  · rw [Engine.deleteMemoryById]
    cases hf : st.memories.findIdx? (fun m => m.id == id) with
    | none => exact hcap
    | some i => exact le_trans (length_eraseIdx_le st.memories i) hcap
  · rw [Engine.cleanupOldMemories]
    exact le_trans (List.length_filter_le _ _) hcap
  · intro m hm
    rcases saveMemory_cases st env now rand content mtype with
      ⟨_, heq⟩ | ⟨_, u, _, heq⟩ | ⟨_, _, heq⟩
    · rw [heq] at hm; exact absurd hm (by simp)
    · rw [heq] at hm; exact absurd hm (by simp)
    · have hmm : m = savedRec env now rand content mtype := by
        rw [heq] at hm
        simpa using hm.symm
      rw [heq, hmm]
      by_cases hlt : st.maxMemories
          < (savedRec env now rand content mtype :: st.memories).length
      · refine ⟨(savedRec env now rand content mtype :: st.memories).drop st.maxMemories, ?_⟩
        show (if st.maxMemories < (savedRec env now rand content mtype :: st.memories).length
            then (savedRec env now rand content mtype :: st.memories).take st.maxMemories
            else savedRec env now rand content mtype :: st.memories)
            ++ (savedRec env now rand content mtype :: st.memories).drop st.maxMemories
          = savedRec env now rand content mtype :: st.memories
        rw [if_pos hlt, List.take_append_drop]
      · refine ⟨[], ?_⟩
        show (if st.maxMemories < (savedRec env now rand content mtype :: st.memories).length
            then (savedRec env now rand content mtype :: st.memories).take st.maxMemories
            else savedRec env now rand content mtype :: st.memories) ++ []
          = savedRec env now rand content mtype :: st.memories
        rw [if_neg hlt, List.append_nil]

/-- Witness for C2 at a concrete input: a save on a fresh empty engine
keeps the collection within the 1000-record cap. -/
theorem C2_cap_preserved_without_import_witness :
    ((mkEngine []).saveMemory pageEnv 0 0 (str "hi") none).1.memories.length ≤ 1000 :=
  (C2_cap_preserved_without_import (mkEngine []) pageEnv 0 0 (str "hi") none 1
    (by decide)).1

/-- Witness for C3 at a concrete input: the union word set of "alpha" and
"beta" is non-empty and the similarity is a well-defined non-negative
rational. -/
theorem C3_jaccard_no_div_by_zero_witness :
    0 < (unionWords (str "alpha") (str "beta")).length ∧
    0 ≤ calculateSimilarity (str "alpha") (str "beta") :=
  ⟨(C3_jaccard_no_div_by_zero (str "alpha") (str "beta")).2.1,
   (C3_jaccard_no_div_by_zero (str "alpha") (str "beta")).2.2.2.1⟩

/- ------------------------------------------------------------------ -/
/- The record-level import agrees with the raw JS-value semantics.     -/
/- ------------------------------------------------------------------ -/

theorem jget_toJson_id (r : Rec) : jget (Rec.toJson r) (str "id") = some (.num r.id) := by
  simp [Rec.toJson, jget, List.find?]

theorem any_map_general (f : α → β) (p : β → Bool) :
    ∀ l : List α, (l.map f).any p = l.any (fun a => p (f a)) := by
  intro l
  induction l with
  | nil => rfl
  | cons x xs ih => simp [List.any_cons, ih]

theorem importMemories_refines_raw (st : Engine) (rs : List Rec) (merge : Bool) :
    importMemoriesRaw (st.memories.map Rec.toJson) (.ok (.arr (rs.map Rec.toJson))) merge
      = ((st.importMemories (.records rs) merge).1.memories.map Rec.toJson,
         (st.importMemories (.records rs) merge).2) := by
  rw [importMemoriesRaw, Engine.importMemories]
  have hfilter :
      (rs.map Rec.toJson).filter
        (fun m => ¬ ((st.memories.map Rec.toJson).map (fun e => jget e (str "id"))).any
          (fun i => sameValueZeroOpt i (jget m (str "id"))))
      = (rs.filter (fun m => ¬ st.memories.any (fun e => e.id == m.id))).map Rec.toJson := by
    rw [List.filter_map]
    congr 1
    apply List.filter_congr
    intro r _
    simp only [Function.comp_def, List.map_map, jget_toJson_id]
    simp only [any_map_general, sameValueZeroOpt, sameValueZero]
  rw [hfilter]
  cases merge with
  | true => simp
  | false => simp

/-- The short-query fast path at page 0 returns the first `limit` records of
the most-recent-first collection, unscored, for every store — the page where
the `page * pageSize` stride of the source coincides with the claimed
`page * limit` pagination. -/
theorem getRelevantMemories_short_query_page_zero (st : Engine) (query : Str)
    (limit : Nat) (now : ℤ)
    (h : (query.isEmpty || decide ((jsTrim query).length < 3)) = true) :
    (st.getRelevantMemories query limit 0 now).1 = .recent (st.memories.take limit) ∧
    (st.getRelevantMemories query limit 0 now).2 = st := by
  rw [Engine.getRelevantMemories, if_pos h]
  exact ⟨by simp [jsSlice], rfl⟩
